import Mathlib

/-!
Verification of the CSV-ingestion pipeline in `src/auto_lims.py` against its
natural-language specification.

Python strings are modelled as `List Char` (`PyStr`).  Pure helper functions of
the script (`clean_name`, `parse_value`, `infer_sql_type`, `move_file`) are
embedded directly.  The stateful parts of `process_file` / `main_loop`
(database connection, transaction, file routing) are embedded as explicit
state passing: the points at which the Python code can raise are enumerated by
a `RunBehavior` record, and the effects on the database connection are
recorded in a `DBTrace`.  `datetime.now()` results are passed in as explicit
parameters (`now : Nat` for the per-file ingestion timestamp, a `PyDateTime`
record for the file-move timestamp).
-/

/-- Python strings, modelled as lists of characters. -/
abbrev PyStr := List Char

/-- The ASCII whitespace characters removed by Python's `str.strip()`
(space, tab, newline, carriage return, vertical tab, form feed). -/
def pyIsSpace (c : Char) : Bool :=
  c.toNat = 32 || c.toNat = 9 || c.toNat = 10 || c.toNat = 13 || c.toNat = 11 || c.toNat = 12

/-- Python `str.strip()`: remove leading and trailing whitespace. -/
def pyStrip (s : PyStr) : PyStr :=
  ((s.dropWhile pyIsSpace).reverse.dropWhile pyIsSpace).reverse

/-- Python `str.replace(a, b)` for a single-character pattern `a`. -/
def replaceChar (a : Char) (b : PyStr) (s : PyStr) : PyStr :=
  s.flatMap (fun c => if c = a then b else [c])

/-- The chain of `.replace` calls of `clean_name` (src/auto_lims.py lines
70-77), applied in source order: spaces, hyphen, period and slash to
underscore, plus-sign to `plus_`, then removal of the parenthesis
characters. -/
def pandasSubst (s : PyStr) : PyStr :=
  replaceChar ')' [] (replaceChar '(' []
    (replaceChar '+' "plus_".data
      (replaceChar '/' ['_'] (replaceChar '.' ['_'] (replaceChar '-' ['_'] (replaceChar ' ' ['_']
        s))))))

/-- `clean_name` (src/auto_lims.py lines 67-77).  A falsy (empty) header falls
back to `"unknown_col"`; otherwise the header is stripped, lowercased and the
substitution chain is applied. -/
def clean_name (name : PyStr) : PyStr :=
  if name = [] then "unknown_col".data
  else pandasSubst ((pyStrip name).map Char.toLower)

/-- Header Normalizer as worded by the spec (section 4.2): fallback constant
for an absent header, otherwise "lowercase, trimmed name with structural
substitutions applied in this order", lowercasing written before trimming. -/
def clean_name_spec (name : PyStr) : PyStr :=
  if name = [] then "unknown_col".data
  else pandasSubst (pyStrip (name.map Char.toLower))

/-- `parse_value` (src/auto_lims.py lines 79-86).  `None` stays `None`; a
string is stripped and compared (case-sensitively) against the sentinel list
`['', 'N/A', 'n/a', 'NaN', 'nan']`. -/
def parse_value (value : Option PyStr) : Option PyStr :=
  match value with
  | none => none
  | some value =>
    let v := pyStrip value
    if v ∈ (["".data, "N/A".data, "n/a".data, "NaN".data, "nan".data] : List PyStr) then none
    else some v

/-- Value Normalizer as worded by the spec (section 4.1): `None` if the cell is
absent or its trimmed form is one of the five sentinels, otherwise the trimmed
string unchanged. -/
def parse_value_spec (value : Option PyStr) : Option PyStr :=
  match value with
  | none => none
  | some s =>
    let t := pyStrip s
    if t = "".data ∨ t = "N/A".data ∨ t = "n/a".data ∨ t = "NaN".data ∨ t = "nan".data then
      none
    else some t

/-- ASCII decimal digit test. -/
def isAsciiDigit (c : Char) : Bool := '0' ≤ c && c ≤ '9'

/-- Consume the rest of a CPython float digit run after its first digit:
further digits, with single underscores allowed only between digits.  Returns
the unconsumed remainder. -/
def dropDigitRun : PyStr → PyStr
  | '_' :: c :: rest => if isAsciiDigit c then dropDigitRun rest else '_' :: c :: rest
  | c :: rest => if isAsciiDigit c then dropDigitRun rest else c :: rest
  | [] => []

/-- A complete digit run (at least one digit) covering the whole input. -/
def digitsTail (s : PyStr) : Bool :=
  match s with
  | c :: rest => isAsciiDigit c && (dropDigitRun rest).isEmpty
  | [] => false

/-- Optional exponent part of a CPython float literal: empty, or `e`/`E`
followed by an optional sign and a digit run. -/
def expPart : PyStr → Bool
  | [] => true
  | c :: rest =>
    if c = 'e' || c = 'E' then
      match rest with
      | '+' :: r => digitsTail r
      | '-' :: r => digitsTail r
      | r => digitsTail r
    else false

/-- Unsigned numeric part of a CPython float literal: `.digits[exp]`,
`digits[exp]`, `digits.[exp]` or `digits.digits[exp]`. -/
def floatBody : PyStr → Bool
  | '.' :: rest =>
    (match rest with
     | c :: r2 => isAsciiDigit c && expPart (dropDigitRun r2)
     | [] => false)
  | c :: rest =>
    if isAsciiDigit c then
      match dropDigitRun rest with
      | '.' :: r2 =>
        (match r2 with
         | d :: r3 => if isAsciiDigit d then expPart (dropDigitRun r3) else expPart r2
         | [] => true)
      | r => expPart r
    else false
  | [] => false

/-- The case-insensitive special float spellings accepted by CPython. -/
def infnanBody (s : PyStr) : Bool :=
  s.map Char.toLower = "inf".data || s.map Char.toLower = "infinity".data ||
    s.map Char.toLower = "nan".data

/-- Strip one optional leading sign. -/
def dropSign : PyStr → PyStr
  | '+' :: r => r
  | '-' :: r => r
  | s => s

/-- Model of CPython `float(v)` succeeding (`float` raising no `ValueError`):
surrounding whitespace is stripped, then an optional sign followed by either a
special spelling (`inf`, `infinity`, `nan`) or a numeric literal. -/
def pyFloatOk (s : PyStr) : Bool :=
  let t := dropSign (pyStrip s)
  infnanBody t || floatBody t

/-- The value loop of `infer_sql_type` (src/auto_lims.py lines 93-104) with its
early `break`: returns the final `(is_numeric, has_data)` pair.  `is_numeric`
starts `true`, `has_data` starts `false`; `None` values are skipped; a value
that fails to parse sets `is_numeric` to `false` and breaks. -/
def numericScan : List (Option PyStr) → Bool × Bool
  | [] => (true, false)
  | none :: rest => numericScan rest
  | some v :: rest =>
    if pyFloatOk v then ((numericScan rest).1, true)
    else (false, true)

/-- `infer_sql_type` (src/auto_lims.py lines 88-108): `TIMESTAMP` if the
header contains `date` or `time`, else `DOUBLE PRECISION` when
`has_data and is_numeric`, else `TEXT`. -/
def infer_sql_type (header_name : PyStr) (values : List (Option PyStr)) : PyStr :=
  if "date".data <:+: header_name ∨ "time".data <:+: header_name then
    "TIMESTAMP".data
  else
    let p := numericScan values
    if p.2 && p.1 then "DOUBLE PRECISION".data else "TEXT".data

/-- Type Inferrer as worded by the spec (section 4.3): name containing `date`
or `time` gives TEMPORAL; else NUMERIC when at least one non-null value exists
and every non-null value parses as a float; otherwise TEXT. -/
def infer_sql_type_spec (header_name : PyStr) (values : List (Option PyStr)) : PyStr :=
  if "date".data <:+: header_name ∨ "time".data <:+: header_name then
    "TIMESTAMP".data
  else if values.any (fun v => v.isSome) &&
      values.all (fun v => match v with | none => true | some s => pyFloatOk s) then
    "DOUBLE PRECISION".data
  else "TEXT".data

/-- A cell of a row bound into the SQL insert: `None`, a cleaned string, or the
`datetime` object used for `import_timestamp` (timestamps are identified by an
abstract `Nat`). -/
inductive CellVal where
  | null : CellVal
  | str : PyStr → CellVal
  | ts : Nat → CellVal
deriving DecidableEq

/-- The data-cell part of one row (src/auto_lims.py lines 150-156): the raw
row is padded with `None` up to the header count when short, sliced to the
header count, and every cell is passed through `parse_value`. -/
def cleanRowData (n : Nat) (row : List PyStr) : List (Option PyStr) :=
  ((row.map some ++ List.replicate (n - row.length) none).take n).map parse_value

/-- Inject a normalized cell into `CellVal`. -/
def cellOfOpt : Option PyStr → CellVal
  | none => CellVal.null
  | some s => CellVal.str s

/-- One full row as appended to `raw_data` (src/auto_lims.py lines 150-162):
the cleaned data cells followed by the two metadata values `filename` and
`now`. -/
def buildRow (n : Nat) (filename : PyStr) (now : Nat) (row : List PyStr) : List CellVal :=
  (cleanRowData n row).map cellOfOpt ++ [CellVal.str filename, CellVal.ts now]

/-- The whole `raw_data` list for one file: rows with zero cells are skipped
(`if not row: continue`), every other row is normalized by `buildRow`.  `now`
is the single `datetime.now()` computed before the row loop. -/
def loadRows (n : Nat) (filename : PyStr) (now : Nat) (dataRows : List (List PyStr)) :
    List (List CellVal) :=
  (dataRows.filter (fun r => !r.isEmpty)).map (buildRow n filename now)

/-- Project a data cell back to the Python value stored in `columns_data`. -/
def optOfCell : CellVal → Option PyStr
  | CellVal.null => none
  | CellVal.str s => some s
  | CellVal.ts _ => none

/-- `columns_data` (src/auto_lims.py lines 177-181): the first
`num_data_cols` values of every row, transposed into per-column lists. -/
def columnsData (n : Nat) (rows : List (List CellVal)) : List (List (Option PyStr)) :=
  (List.range n).map (fun i => rows.map (fun r => optOfCell (r.getD i CellVal.null)))

/-- The body of the type-assignment loop of `process_file`
(src/auto_lims.py lines 183-193), carrying the running `enumerate` index `i`:
a header equal to `source_filename` is typed `TEXT` and one equal to
`import_timestamp` is typed `TIMESTAMP` before the data-column test, any other
header at a data position is typed by `infer_sql_type`, and any other header
past the data columns falls back to `TEXT`. -/
def columnTypesGo (n : Nat) (cd : List (List (Option PyStr))) : Nat → List PyStr → List PyStr
  | _, [] => []
  | i, h :: rest =>
    (if h = "source_filename".data then "TEXT".data
     else if h = "import_timestamp".data then "TIMESTAMP".data
     else if i < n then infer_sql_type h (cd.getD i []) else "TEXT".data)
      :: columnTypesGo n cd (i + 1) rest

/-- `column_types` (src/auto_lims.py lines 183-193), the full list produced by
the loop started at index 0. -/
def column_types (headers : List PyStr) (n : Nat) (cd : List (List (Option PyStr))) :
    List PyStr :=
  columnTypesGo n cd 0 headers

/-- The points at which one run of `process_file` can raise: reading/parsing
the file, `psycopg2.connect`, the `CREATE TABLE` execute, the `executemany`
insert, and `conn.commit()`.  A `false` field means that step raises. -/
structure RunBehavior where
  readOk : Bool
  connectOk : Bool
  createOk : Bool
  insertOk : Bool
  commitOk : Bool
deriving DecidableEq

/-- What happened to the per-file database connection: whether it was ever
opened, whether `commit` completed, whether `rollback` was called, and whether
`close` was called. -/
structure DBTrace where
  opened : Bool
  committed : Bool
  rolledBack : Bool
  closed : Bool
deriving DecidableEq

/-- Trace of an exit taken while `conn` is still `None`: nothing to roll back
or close (`if conn:` guards both calls). -/
def noConnTrace : DBTrace := ⟨false, false, false, false⟩

/-- Trace of a failure after the connection opened: the except block rolls the
transaction back and the finally block closes the connection. -/
def failConnTrace : DBTrace := ⟨true, false, true, true⟩

/-- Trace of the success path: committed, never rolled back, closed by the
finally block. -/
def okConnTrace : DBTrace := ⟨true, true, false, true⟩

/-- Observable outcome of `process_file`: the returned success flag, the
message of the exception caught at the file boundary (if any), the connection
trace, and the rows the destination table gained from this file. -/
structure ProcResult where
  success : Bool
  errMsg : Option PyStr
  trace : DBTrace
  committedRows : List (List CellVal)
deriving DecidableEq

/-- `process_file` (src/auto_lims.py lines 126-224).  The file content is the
list of CSV records `fileRows` (header row first).  Every exception is caught
at the file boundary: the function always returns, with `success = false` and
the corresponding trace on any error.  `rollback` and `close` themselves are
modelled as non-raising, per the database contract.  A file with no record at
all raises at `next(reader)`; a file whose `raw_data` stays empty raises the
no-valid-data error; both happen while `conn` is still `None`. -/
def process_file (fileRows : List (List PyStr)) (filename : PyStr) (now : Nat)
    (b : RunBehavior) : ProcResult :=
  if !b.readOk then ⟨false, some "read error".data, noConnTrace, []⟩
  else
    match fileRows with
    | [] => ⟨false, some "El archivo CSV está vacío.".data, noConnTrace, []⟩
    | originalHeaders :: dataRows =>
      if (loadRows originalHeaders.length filename now dataRows).isEmpty then
        ⟨false, some "No hay datos válidos en el archivo.".data, noConnTrace, []⟩
      else if !b.connectOk then ⟨false, some "connection error".data, noConnTrace, []⟩
      else if !b.createOk then ⟨false, some "DDL error".data, failConnTrace, []⟩
      else if !b.insertOk then ⟨false, some "insert error".data, failConnTrace, []⟩
      else if !b.commitOk then ⟨false, some "commit error".data, failConnTrace, []⟩
      else ⟨true, none, okConnTrace, loadRows originalHeaders.length filename now dataRows⟩

/-- One file visible to `main_loop`: its name, its CSV records, the
`datetime.now()` observed while it is processed, and where its processing can
raise. -/
structure FileSpec where
  name : PyStr
  rows : List (List PyStr)
  now : Nat
  behavior : RunBehavior
deriving DecidableEq

/-- The two routing destinations of `main_loop`. -/
inductive Dest where
  | processed : Dest
  | errors : Dest
deriving DecidableEq

/-- `file_name.startswith('.')` (src/auto_lims.py line 242). -/
def isDotFile : PyStr → Bool
  | c :: _ => c = '.'
  | [] => false

/-- One cycle of `main_loop` (src/auto_lims.py lines 237-252): dot-files are
skipped, every other listed file is processed and then routed to the processed
or the errors directory according to the returned success flag.
`process_file` never raises (it catches every exception), so the for loop
reaches every file. -/
def main_loop_cycle (files : List FileSpec) : List (PyStr × Dest) :=
  (files.filter (fun f => !isDotFile f.name)).map
    (fun f =>
      (f.name,
       if (process_file f.rows f.name f.now f.behavior).success then Dest.processed
       else Dest.errors))

/-- Zero-padded decimal rendering of width `w`, as produced by the `strftime`
numeric directives. -/
def padNum (w n : Nat) : PyStr :=
  let s := Nat.toDigits 10 n
  List.replicate (w - s.length) '0' ++ s

/-- The calendar and clock components of a `datetime` value used by
`move_file`. -/
structure PyDateTime where
  year : Nat
  month : Nat
  day : Nat
  hour : Nat
  minute : Nat
  second : Nat
deriving DecidableEq

/-- `datetime.strftime("%Y%m%d_%H%M%S")` (src/auto_lims.py line 118). -/
def strftimeYmdHMS (t : PyDateTime) : PyStr :=
  padNum 4 t.year ++ padNum 2 t.month ++ padNum 2 t.day ++ '_' ::
    (padNum 2 t.hour ++ padNum 2 t.minute ++ padNum 2 t.second)

/-- `os.path.splitext` on a bare filename: split at the last dot that has some
non-dot character before it; the leading dots of a hidden file never start an
extension. -/
def splitext (p : PyStr) : PyStr × PyStr :=
  let idxs := (List.range p.length).filter
    (fun i => p.getD i ' ' == '.' && (List.range i).any (fun j => p.getD j ' ' != '.'))
  match idxs.getLast? with
  | some i => (p.take i, p.drop i)
  | none => (p, [])

/-- `move_file` (src/auto_lims.py lines 110-124): `existing` is the set of
names already present in the destination directory and `now` the move time.
Returns the destination name finally passed to `shutil.move` together with
whether that move replaces an existing destination file (POSIX rename
semantics: moving onto an existing regular file overwrites it). -/
def move_file (existing : List PyStr) (filename : PyStr) (now : PyDateTime) : PyStr × Bool :=
  if filename ∈ existing then
    let be := splitext filename
    let dest := be.1 ++ '_' :: (strftimeYmdHMS now ++ be.2)
    (dest, decide (dest ∈ existing))
  else (filename, false)

/-- A concrete file whose processing fails (header row, no data rows), used by
witnesses. -/
def wFile : FileSpec := ⟨"bad.csv".data, [["h".data]], 0, ⟨true, true, true, true, true⟩⟩

/-- A one-file input listing, used by witnesses. -/
def wFiles : List FileSpec := [wFile]

theorem toNat_ofNat_valid (n : Nat) (h : n.isValidChar) : (Char.ofNat n).toNat = n := by
  simp [Char.ofNat, h, Char.ofNatAux, Char.toNat, UInt32.toNat, BitVec.toNat_ofNatLt]

theorem toLower_toLower (c : Char) : Char.toLower (Char.toLower c) = Char.toLower c := by
  unfold Char.toLower
  by_cases h : c.toNat ≥ 65 ∧ c.toNat ≤ 90
  · rw [if_pos h]
    have hv : (c.toNat + 32).isValidChar := by
      constructor
      omega
    rw [toNat_ofNat_valid _ hv]
    rw [if_neg (by omega)]
  · rw [if_neg h, if_neg h]

theorem replaceChar_cons (a : Char) (b : PyStr) (d : Char) (t : PyStr) :
    replaceChar a b (d :: t) = (if d = a then b else [d]) ++ replaceChar a b t := by
  simp [replaceChar]

theorem mem_replaceChar {c a : Char} {b s : PyStr} (h : c ∈ replaceChar a b s) :
    c ∈ b ∨ (c ∈ s ∧ c ≠ a) := by
  induction s with
  | nil => exact absurd h (List.not_mem_nil c)
  | cons d t ih =>
    rw [replaceChar_cons] at h
    rcases List.mem_append.1 h with h1 | h2
    · by_cases hd : d = a
      · rw [if_pos hd] at h1
        exact Or.inl h1
      · rw [if_neg hd] at h1
        have : c = d := by simpa using h1
        subst this
        exact Or.inr ⟨List.mem_cons_self c t, hd⟩
    · rcases ih h2 with h3 | ⟨h4, h5⟩
      · exact Or.inl h3
      · exact Or.inr ⟨List.mem_cons_of_mem d h4, h5⟩

theorem replaceChar_eq_self {a : Char} {b s : PyStr} (h : a ∉ s) : replaceChar a b s = s := by
  induction s with
  | nil => rfl
  | cons d t ih =>
    simp only [List.mem_cons, not_or] at h
    rw [replaceChar_cons, if_neg (fun he => h.1 he.symm), ih h.2]
    rfl

theorem mem_pandasSubst {c : Char} {s : PyStr} (h : c ∈ pandasSubst s) :
    (c ∈ "plus_".data ∨ c = '_' ∨ c ∈ s) ∧
      c ∉ ([' ', '-', '.', '/', '+', '(', ')'] : List Char) := by
  unfold pandasSubst at h
  rcases mem_replaceChar h with h7 | ⟨h, hne7⟩
  · exact absurd h7 (List.not_mem_nil c)
  rcases mem_replaceChar h with h6 | ⟨h, hne6⟩
  · exact absurd h6 (List.not_mem_nil c)
  rcases mem_replaceChar h with hp | ⟨h, hne5⟩
  · refine ⟨Or.inl hp, ?_⟩
    have hp' : c ∈ (['p', 'l', 'u', 's', '_'] : List Char) := hp
    fin_cases hp' <;> decide
  rcases mem_replaceChar h with h4 | ⟨h, hne4⟩
  · have : c = '_' := by simpa using h4
    subst this
    exact ⟨Or.inr (Or.inl rfl), by decide⟩
  rcases mem_replaceChar h with h3 | ⟨h, hne3⟩
  · have : c = '_' := by simpa using h3
    subst this
    exact ⟨Or.inr (Or.inl rfl), by decide⟩
  rcases mem_replaceChar h with h2 | ⟨h, hne2⟩
  · have : c = '_' := by simpa using h2
    subst this
    exact ⟨Or.inr (Or.inl rfl), by decide⟩
  rcases mem_replaceChar h with h1 | ⟨h, hne1⟩
  · have : c = '_' := by simpa using h1
    subst this
    exact ⟨Or.inr (Or.inl rfl), by decide⟩
  refine ⟨Or.inr (Or.inr h), ?_⟩
  simp only [List.mem_cons, List.not_mem_nil, or_false, not_or]
  exact ⟨hne1, hne2, hne3, hne4, hne5, hne6, hne7⟩

theorem toLower_fixed_clean {name : PyStr} {c : Char} (hc : c ∈ clean_name name) :
    Char.toLower c = c := by
  unfold clean_name at hc
  by_cases h0 : name = []
  · rw [if_pos h0] at hc
    have hc' : c ∈ ("unknown_col".data : List Char) := hc
    fin_cases hc' <;> decide
  · rw [if_neg h0] at hc
    rcases (mem_pandasSubst hc).1 with hp | h_ | hm
    · have hp' : c ∈ (['p', 'l', 'u', 's', '_'] : List Char) := hp
      fin_cases hp' <;> decide
    · subst h_
      decide
    · rcases List.mem_map.1 hm with ⟨d, _, rfl⟩
      exact toLower_toLower d

theorem bad_not_mem_clean {name : PyStr} {x : Char}
    (hx : x ∈ ([' ', '-', '.', '/', '+', '(', ')'] : List Char)) : x ∉ clean_name name := by
  intro hmem
  unfold clean_name at hmem
  by_cases h0 : name = []
  · rw [if_pos h0] at hmem
    fin_cases hx <;> exact absurd hmem (by decide)
  · rw [if_neg h0] at hmem
    exact (mem_pandasSubst hmem).2 hx

theorem pandasSubst_eq_self {s : PyStr}
    (h : ∀ x ∈ ([' ', '-', '.', '/', '+', '(', ')'] : List Char), x ∉ s) :
    pandasSubst s = s := by
  unfold pandasSubst
  rw [replaceChar_eq_self (h ' ' (by decide)), replaceChar_eq_self (h '-' (by decide)),
    replaceChar_eq_self (h '.' (by decide)), replaceChar_eq_self (h '/' (by decide)),
    replaceChar_eq_self (h '+' (by decide)), replaceChar_eq_self (h '(' (by decide)),
    replaceChar_eq_self (h ')' (by decide))]

theorem pyIsSpace_toLower (c : Char) : pyIsSpace (Char.toLower c) = pyIsSpace c := by
  unfold Char.toLower
  by_cases h : c.toNat ≥ 65 ∧ c.toNat ≤ 90
  · rw [if_pos h]
    have hv : (c.toNat + 32).isValidChar := Or.inl (by omega)
    have hL : pyIsSpace (Char.ofNat (c.toNat + 32)) = false := by
      simp only [pyIsSpace, toNat_ofNat_valid _ hv, Bool.or_eq_false_iff,
        decide_eq_false_iff_not]
      omega
    have hR : pyIsSpace c = false := by
      simp only [pyIsSpace, Bool.or_eq_false_iff, decide_eq_false_iff_not]
      omega
    rw [hL, hR]
  · rw [if_neg h]

theorem pyStrip_map_toLower (s : PyStr) :
    pyStrip (s.map Char.toLower) = (pyStrip s).map Char.toLower := by
  have hp : pyIsSpace ∘ Char.toLower = pyIsSpace := funext pyIsSpace_toLower
  unfold pyStrip
  rw [List.dropWhile_map, hp, ← List.map_reverse, List.dropWhile_map, hp, ← List.map_reverse]

theorem numericScan_eq (vs : List (Option PyStr)) :
    numericScan vs =
      (vs.all (fun v => match v with | none => true | some s => pyFloatOk s),
       vs.any (fun v => v.isSome)) := by
  induction vs with
  | nil => rfl
  | cons v rest ih =>
    cases v with
    | none => simp [numericScan, ih]
    | some s =>
      by_cases hf : pyFloatOk s <;> simp [numericScan, hf, ih]

theorem cleanRowData_length (n : Nat) (row : List PyStr) :
    (cleanRowData n row).length = n := by
  simp [cleanRowData]
  omega

theorem buildRow_drop (n : Nat) (filename : PyStr) (now : Nat) (row : List PyStr) :
    (buildRow n filename now row).drop n = [CellVal.str filename, CellVal.ts now] ∧
      (buildRow n filename now row).length = n + 2 := by
  unfold buildRow
  have hlen : ((cleanRowData n row).map cellOfOpt).length = n := by
    simp [cleanRowData_length]
  constructor
  · exact List.drop_left' hlen
  · simp [hlen]

theorem process_file_shape (rows : List (List PyStr)) (fname : PyStr) (now : Nat)
    (b : RunBehavior) :
    ((process_file rows fname now b).trace = noConnTrace ∧
        (process_file rows fname now b).success = false ∧
        (process_file rows fname now b).committedRows = []) ∨
      ((process_file rows fname now b).trace = failConnTrace ∧
        (process_file rows fname now b).success = false ∧
        (process_file rows fname now b).committedRows = []) ∨
      ((process_file rows fname now b).trace = okConnTrace ∧
        (process_file rows fname now b).success = true) := by
  unfold process_file
  split
  · exact Or.inl ⟨rfl, rfl, rfl⟩
  · split
    · exact Or.inl ⟨rfl, rfl, rfl⟩
    · split
      · exact Or.inl ⟨rfl, rfl, rfl⟩
      · split
        · exact Or.inl ⟨rfl, rfl, rfl⟩
        · split
          · exact Or.inr (Or.inl ⟨rfl, rfl, rfl⟩)
          · split
            · exact Or.inr (Or.inl ⟨rfl, rfl, rfl⟩)
            · split
              · exact Or.inr (Or.inl ⟨rfl, rfl, rfl⟩)
              · exact Or.inr (Or.inr ⟨rfl, rfl⟩)

theorem mem_main_loop_cycle (files : List FileSpec) (f : FileSpec) (hf : f ∈ files)
    (hdot : isDotFile f.name = false) :
    (f.name,
      if (process_file f.rows f.name f.now f.behavior).success then Dest.processed
      else Dest.errors) ∈ main_loop_cycle files := by
  unfold main_loop_cycle
  exact List.mem_map_of_mem _ (List.mem_filter.2 ⟨hf, by simp [hdot]⟩)

theorem columnTypesGo_getD (n : Nat) (cd : List (List (Option PyStr))) :
    ∀ (hs : List PyStr) (j i : Nat), i < hs.length →
      (columnTypesGo n cd j hs).getD i [] =
        (if hs.getD i [] = "source_filename".data then "TEXT".data
         else if hs.getD i [] = "import_timestamp".data then "TIMESTAMP".data
         else if j + i < n then infer_sql_type (hs.getD i []) (cd.getD (j + i) [])
         else "TEXT".data) := by
  intro hs
  induction hs with
  | nil =>
    intro j i hi
    exact absurd hi (by simp)
  | cons hd tl ih =>
    intro j i hi
    cases i with
    | zero => simp [columnTypesGo]
    | succ k =>
      have hk : k < tl.length := by simpa using hi
      have harith : j + 1 + k = j + (k + 1) := by omega
      simpa [columnTypesGo, harith] using ih (j + 1) k hk

/-- Claim C1 as frozen is false on the code: header normalization is not
idempotent for every raw header string.  `clean_name "("` is the empty string,
which re-normalizes to `"unknown_col"`; and `clean_name "a\t("` is `"a\t"`,
whose re-normalization strips the tab. -/
theorem C1_counterexample :
    clean_name (clean_name "(".data) ≠ clean_name "(".data ∧
      clean_name (clean_name "a\t(".data) ≠ clean_name "a\t(".data := by
  exact ⟨by decide, by decide⟩

/-- Claim C1 (amended): header normalization is idempotent for every raw
header whose once-normalized form is nonempty and carries no leading or
trailing whitespace, i.e. `clean_name (clean_name h) = clean_name h` whenever
`clean_name h` is nonempty and fixed by `pyStrip`. -/
theorem C1_idempotent_amended (name : PyStr) (h1 : clean_name name ≠ [])
    (h2 : pyStrip (clean_name name) = clean_name name) :
    clean_name (clean_name name) = clean_name name := by
  conv_lhs => rw [clean_name]
  rw [if_neg h1, h2]
  rw [List.map_congr_left (fun c hc => toLower_fixed_clean hc), List.map_id']
  exact pandasSubst_eq_self (fun x hx => bad_not_mem_clean hx)

/-- Witness for C1 (amended) at the raw header `"Sample ID"`. -/
theorem C1_idempotent_amended_witness :
    clean_name "Sample ID".data ≠ [] ∧
      pyStrip (clean_name "Sample ID".data) = clean_name "Sample ID".data ∧
      clean_name (clean_name "Sample ID".data) = clean_name "Sample ID".data := by
  exact ⟨by decide, by decide, C1_idempotent_amended _ (by decide) (by decide)⟩

/-- Claim C2: for every normalized header name and list of observed normalized
values, `infer_sql_type` follows the spec's priority order: TIMESTAMP when the
name contains `date` or `time`; else DOUBLE PRECISION when at least one
non-null value exists and every non-null value parses as a float; else TEXT,
in particular TEXT when no non-null value exists. -/
theorem C2_infer_type_priority (h : PyStr) (vs : List (Option PyStr)) :
    infer_sql_type h vs = infer_sql_type_spec h vs := by
  unfold infer_sql_type infer_sql_type_spec
  rw [numericScan_eq]

/-- Claim C3: for every eligible input file, on any error during its
processing the connection trace shows `rollback` whenever a connection was
open, the destination table gains none of the file's rows, the file is routed
to the errors directory, and the file still appears (routed) in the cycle's
outcome list, so the loop goes on; moreover the connection is closed exactly
on those exits where it was opened, success or failure. -/
theorem C3_error_policy (files : List FileSpec) (f : FileSpec) (hf : f ∈ files)
    (hdot : isDotFile f.name = false) :
    ((process_file f.rows f.name f.now f.behavior).trace.closed
        = (process_file f.rows f.name f.now f.behavior).trace.opened)
    ∧ ((process_file f.rows f.name f.now f.behavior).success = false →
        ((process_file f.rows f.name f.now f.behavior).trace.opened = true →
          (process_file f.rows f.name f.now f.behavior).trace.rolledBack = true)
        ∧ (process_file f.rows f.name f.now f.behavior).committedRows = []
        ∧ (f.name, Dest.errors) ∈ main_loop_cycle files)
    ∧ (f.name,
        if (process_file f.rows f.name f.now f.behavior).success then Dest.processed
        else Dest.errors) ∈ main_loop_cycle files := by
  have hmem := mem_main_loop_cycle files f hf hdot
  rcases process_file_shape f.rows f.name f.now f.behavior with ⟨ht, hs, hc⟩ | ⟨ht, hs, hc⟩ |
    ⟨ht, hs⟩
  · refine ⟨by rw [ht]; rfl, fun _ => ⟨fun hop => ?_, hc, ?_⟩, hmem⟩
    · rw [ht] at hop
      exact absurd hop (by decide)
    · rw [hs] at hmem
      simpa using hmem
  · refine ⟨by rw [ht]; rfl, fun _ => ⟨fun _ => by rw [ht]; rfl, hc, ?_⟩, hmem⟩
    rw [hs] at hmem
    simpa using hmem
  · refine ⟨by rw [ht]; rfl, fun hfalse => ?_, hmem⟩
    rw [hs] at hfalse
    exact absurd hfalse (by decide)

/-- Witness for C3 at a one-file listing whose file fails (header only). -/
theorem C3_error_policy_witness :
    wFile ∈ wFiles ∧ isDotFile wFile.name = false ∧
    (((process_file wFile.rows wFile.name wFile.now wFile.behavior).trace.closed
        = (process_file wFile.rows wFile.name wFile.now wFile.behavior).trace.opened)
    ∧ ((process_file wFile.rows wFile.name wFile.now wFile.behavior).success = false →
        ((process_file wFile.rows wFile.name wFile.now wFile.behavior).trace.opened = true →
          (process_file wFile.rows wFile.name wFile.now wFile.behavior).trace.rolledBack = true)
        ∧ (process_file wFile.rows wFile.name wFile.now wFile.behavior).committedRows = []
        ∧ (wFile.name, Dest.errors) ∈ main_loop_cycle wFiles)
    ∧ (wFile.name,
        if (process_file wFile.rows wFile.name wFile.now wFile.behavior).success
        then Dest.processed else Dest.errors) ∈ main_loop_cycle wFiles) := by
  exact ⟨by decide, by decide, C3_error_policy wFiles wFile (by decide) (by decide)⟩

/-- Claim C4: the Value Normalizer returns `None` exactly on an absent cell or
one whose trimmed form is a case-sensitive member of the sentinel set
`{"", "N/A", "n/a", "NaN", "nan"}`, and returns the trimmed string unchanged
otherwise. -/
theorem C4_parse_value_spec (v : Option PyStr) : parse_value v = parse_value_spec v := by
  cases v <;> simp [parse_value, parse_value_spec, List.mem_cons]

/-- Claim C5: for every data row, the cleaned data cells are the first `n` raw
cells passed through the Value Normalizer, padded at the end with nulls up to
the header count `n`; a row with `n` or more cells contributes exactly its
first `n` cells (the replicate part is then empty) and a shorter row is padded
with nulls. -/
theorem C5_row_pad_truncate (n : Nat) (row : List PyStr) :
    cleanRowData n row =
      (row.take n).map (fun c => parse_value (some c)) ++
        List.replicate (n - row.length) none := by
  unfold cleanRowData
  rcases Nat.lt_or_ge row.length n with h | h
  · have hlen : (row.map some ++ List.replicate (n - row.length) none).length = n := by
      simp
      omega
    rw [List.take_of_length_le (le_of_eq hlen),
      List.take_of_length_le (Nat.le_of_lt h), List.map_append, List.map_map,
      List.map_replicate]
    rfl
  · have hk : n - row.length = 0 := Nat.sub_eq_zero_of_le h
    rw [hk, List.replicate_zero, List.append_nil, List.append_nil, ← List.map_take,
      List.map_map]
    rfl

/-- Claim C6: a file with a header row whose data rows are all empty (hence
skipped) fails with the no-valid-data error while no connection is open, and
the file is routed to the errors directory. -/
theorem C6_no_data (files : List FileSpec) (f : FileSpec) (hf : f ∈ files)
    (hdot : isDotFile f.name = false) (hread : f.behavior.readOk = true)
    (hdr : List PyStr) (dataRows : List (List PyStr)) (hrows : f.rows = hdr :: dataRows)
    (hnodata : ∀ r ∈ dataRows, r = []) :
    (process_file f.rows f.name f.now f.behavior).success = false
    ∧ (process_file f.rows f.name f.now f.behavior).errMsg
        = some "No hay datos válidos en el archivo.".data
    ∧ (f.name, Dest.errors) ∈ main_loop_cycle files := by
  have hfilter : dataRows.filter (fun r => !r.isEmpty) = [] := by
    rw [List.filter_eq_nil_iff]
    intro a ha
    rw [hnodata a ha]
    decide
  have hload : loadRows hdr.length f.name f.now dataRows = [] := by
    unfold loadRows
    rw [hfilter]
    rfl
  have hproc : process_file f.rows f.name f.now f.behavior =
      ⟨false, some "No hay datos válidos en el archivo.".data, noConnTrace, []⟩ := by
    rw [hrows]
    unfold process_file
    rw [hread]
    simp only [Bool.not_true, if_neg (by decide : ¬ (false : Bool) = true)]
    rw [hload]
    rfl
  refine ⟨by rw [hproc], by rw [hproc], ?_⟩
  have hmem := mem_main_loop_cycle files f hf hdot
  rw [hproc] at hmem
  simpa using hmem

/-- Witness for C6 at a file holding only the header row `["h"]`. -/
theorem C6_no_data_witness :
    wFile ∈ wFiles ∧ isDotFile wFile.name = false ∧ wFile.behavior.readOk = true ∧
    wFile.rows = ["h".data] :: [] ∧
    ((process_file wFile.rows wFile.name wFile.now wFile.behavior).success = false
    ∧ (process_file wFile.rows wFile.name wFile.now wFile.behavior).errMsg
        = some "No hay datos válidos en el archivo.".data
    ∧ (wFile.name, Dest.errors) ∈ main_loop_cycle wFiles) := by
  exact ⟨by decide, by decide, by decide, by decide,
    C6_no_data wFiles wFile (by decide) (by decide) (by decide) ["h".data] [] rfl
      (by simp)⟩

/-- Claim C7: every normalized row of a file is its data cells (exactly the
header count of them) followed by exactly the two metadata fields, in the
order `source_filename` then `import_timestamp`, the timestamp being the one
`now` computed at file-processing start and hence identical for every row. -/
theorem C7_metadata_columns (n : Nat) (filename : PyStr) (now : Nat)
    (dataRows : List (List PyStr)) (r : List CellVal)
    (hr : r ∈ loadRows n filename now dataRows) :
    r.length = n + 2 ∧ r.drop n = [CellVal.str filename, CellVal.ts now] := by
  unfold loadRows at hr
  rcases List.mem_map.1 hr with ⟨row, _, rfl⟩
  exact ⟨(buildRow_drop n filename now row).2, (buildRow_drop n filename now row).1⟩

/-- Witness for C7 on a two-row file with a short second row. -/
theorem C7_metadata_columns_witness :
    ([CellVal.str "a".data, CellVal.str "b".data, CellVal.str "f.csv".data, CellVal.ts 7]
        ∈ loadRows 2 "f.csv".data 7 [["a".data, "b".data], ["c".data]])
    ∧ ([CellVal.str "a".data, CellVal.str "b".data, CellVal.str "f.csv".data,
          CellVal.ts 7].length = 2 + 2
       ∧ [CellVal.str "a".data, CellVal.str "b".data, CellVal.str "f.csv".data,
            CellVal.ts 7].drop 2 = [CellVal.str "f.csv".data, CellVal.ts 7]) := by
  exact ⟨by decide,
    C7_metadata_columns 2 "f.csv".data 7 [["a".data, "b".data], ["c".data]] _ (by decide)⟩

/-- Claim C8 as frozen is false on the code: the router can overwrite an
existing destination file.  When the timestamp-disambiguated name is itself
already present at the destination, the single retried move replaces it. -/
theorem C8_counterexample :
    (move_file ["a.csv".data, "a_20240101_120000.csv".data] "a.csv".data
      ⟨2024, 1, 1, 12, 0, 0⟩).1 = "a_20240101_120000.csv".data ∧
    (move_file ["a.csv".data, "a_20240101_120000.csv".data] "a.csv".data
      ⟨2024, 1, 1, 12, 0, 0⟩).2 = true := by
  exact ⟨by decide, by decide⟩

/-- Claim C8 (amended): on a name collision the router appends the
`YYYYMMDD_HHMMSS` timestamp of the move time to the base filename before the
extension and retries the move with that name exactly once; it does not
overwrite provided that disambiguated name is not itself already present at
the destination (the code does not re-check it). -/
theorem C8_collision_amended (existing : List PyStr) (filename : PyStr) (now : PyDateTime)
    (hcoll : filename ∈ existing)
    (hfree : (splitext filename).1 ++ '_' :: (strftimeYmdHMS now ++ (splitext filename).2)
      ∉ existing) :
    (move_file existing filename now).1
      = (splitext filename).1 ++ '_' :: (strftimeYmdHMS now ++ (splitext filename).2)
    ∧ (move_file existing filename now).2 = false := by
  unfold move_file
  rw [if_pos hcoll]
  exact ⟨rfl, decide_eq_false hfree⟩

/-- Witness for C8 (amended): moving `a.csv` onto a directory already holding
`a.csv` lands at `a_20240101_120000.csv` without overwriting. -/
theorem C8_collision_amended_witness :
    ("a.csv".data ∈ (["a.csv".data] : List PyStr)) ∧
    ((splitext "a.csv".data).1 ++ '_' ::
        (strftimeYmdHMS ⟨2024, 1, 1, 12, 0, 0⟩ ++ (splitext "a.csv".data).2)
      ∉ (["a.csv".data] : List PyStr)) ∧
    ((move_file ["a.csv".data] "a.csv".data ⟨2024, 1, 1, 12, 0, 0⟩).1
        = (splitext "a.csv".data).1 ++ '_' ::
            (strftimeYmdHMS ⟨2024, 1, 1, 12, 0, 0⟩ ++ (splitext "a.csv".data).2)
      ∧ (move_file ["a.csv".data] "a.csv".data ⟨2024, 1, 1, 12, 0, 0⟩).2 = false) := by
  exact ⟨by decide, by decide,
    C8_collision_amended ["a.csv".data] "a.csv".data ⟨2024, 1, 1, 12, 0, 0⟩ (by decide)
      (by decide)⟩

/-- Claim C9: the Header Normalizer equals the spec's description of it:
fallback to `unknown_col` for an absent header, otherwise lowercasing and
trimming followed by the ordered substitutions spaces, hyphen, period and
slash to underscore, plus-sign to `plus_`, then removal of parentheses. -/
theorem C9_clean_name_spec (name : PyStr) : clean_name name = clean_name_spec name := by
  unfold clean_name clean_name_spec
  by_cases h0 : name = []
  · rw [if_pos h0, if_pos h0]
  · rw [if_neg h0, if_neg h0, pyStrip_map_toLower]

/-- Claim C10: a column (data or metadata) whose normalized header name is
exactly `source_filename` or `import_timestamp` bypasses value-based type
inference entirely: whatever the observed values, its assigned type is `TEXT`
respectively `TIMESTAMP`. -/
theorem C10_metadata_name_bypass (headers : List PyStr) (n : Nat)
    (cd : List (List (Option PyStr))) (i : Nat) (hi : i < headers.length)
    (hname : headers.getD i [] = "source_filename".data ∨
      headers.getD i [] = "import_timestamp".data) :
    (column_types headers n cd).getD i [] =
      (if headers.getD i [] = "source_filename".data then "TEXT".data
       else "TIMESTAMP".data) := by
  unfold column_types
  rw [columnTypesGo_getD n cd headers 0 i hi]
  rcases hname with h | h
  · rw [if_pos h, if_pos h]
  · rw [h, if_neg (by decide), if_pos rfl, if_neg (by decide)]

/-- Witness for C10: the all-numeric data column headed `"Source Filename"`
normalizes to `source_filename` and is typed `TEXT`, not `DOUBLE PRECISION`. -/
theorem C10_metadata_name_bypass_witness :
    clean_name "Source Filename".data = "source_filename".data ∧
    (0 < ([clean_name "Source Filename".data] : List PyStr).length) ∧
    (column_types [clean_name "Source Filename".data] 1
        [[some "1".data, some "2.5".data]]).getD 0 [] = "TEXT".data := by
  refine ⟨by decide, by decide, ?_⟩
  have h := C10_metadata_name_bypass [clean_name "Source Filename".data] 1
    [[some "1".data, some "2.5".data]] 0 (by decide) (Or.inl (by decide))
  exact h.trans (by decide)
